import Mathlib

/-
  Shallow embedding of the bookshelf-supermodel repository.

  The authoritative module is the second variant in src/unnamed/part_000
  (the one with a configurable digest column and configurable bcrypt
  rounds); src/src/Supermodel.js and the first variant of part_000 are
  near-duplicates.  JavaScript objects used as attribute maps are embedded
  as association lists of (key, value) pairs; JS `undefined` is `Option.none`,
  JS `null` is `Value.vNull`.  bcrypt is external to the repository, so a
  bcrypt digest is embedded abstractly as `Value.vDigest rounds plain`,
  recording that `bcrypt.hash(plain, genSalt(rounds))` was computed; two
  digests agree exactly when they were computed from the same plaintext and
  rounds, and `bcrypt.compareSync` is embedded accordingly.
-/

namespace Supermodel

/-- A JavaScript runtime value as used by the repository: null, booleans,
numbers, strings, dates, and (abstractly) bcrypt digest strings. -/
inductive Value where
  | vNull : Value
  | vBool : Bool → Value
  | vNum : Int → Value
  | vStr : String → Value
  | vDate : Int → Value
  | vDigest : Int → Value → Value
deriving DecidableEq, Repr

/-- A JavaScript object used as an attribute map: an association list from
key to value.  Keys are unique in every object the program builds. -/
abbrev Attrs := List (String × Value)

/-- Property lookup on a JS object (first occurrence of the key). -/
def lookupAttr : Attrs → String → Option Value
  | [], _ => none
  | (k', v) :: rest, k => if k' = k then some v else lookupAttr rest k

/-- Property assignment `obj[k] = v`: replace the existing binding in place,
or append a new one. -/
def setAttrKV (a : Attrs) (k : String) (v : Value) : Attrs :=
  if a.any (fun kv => kv.1 = k) then
    a.map (fun kv => if kv.1 = k then (k, v) else kv)
  else
    a ++ [(k, v)]

/-- JS `Object.keys(obj)`. -/
def attrKeys (a : Attrs) : List String := a.map (fun kv => kv.1)

/-- The `xtend` merge `extend(a, b)`: copy `a` then copy `b`, with `b`'s bindings
winning on colliding keys. -/
def extendAttrs (a b : Attrs) : Attrs :=
  b.foldl (fun acc kv => setAttrKV acc kv.1 kv.2) a

/-- JS string coercion `(''+v)` for the values the repository stages as
passwords.  (Dates and digests are never staged; their rendering is
irrelevant to every claim.) -/
def jsToStringV : Value → String
  | Value.vNull => "null"
  | Value.vBool b => if b then "true" else "false"
  | Value.vNum n => toString n
  | Value.vStr s => s
  | Value.vDate t => toString t
  | Value.vDigest _ _ => "digest"

/-- The helper `isEmpty` from part_000 lines 320-326: undefined or null, or the string
coercion has length zero. -/
def jsIsEmpty : Option Value → Bool
  | none => true
  | some Value.vNull => true
  | some v => (jsToStringV v).length == 0

/-- Base type of a Joi field as used by the repository: `Joi.any()`,
`Joi.string()`, `Joi.date()`. -/
inductive JoiType where
  | anyT : JoiType
  | strT : JoiType
  | dateT : JoiType
deriving DecidableEq, Repr

/-- One named field of a Joi object schema, with the combinators the
repository uses: `.valid(...)` (whitelist), `.allow(null)`, `.required()` /
`.optional()`, `.default(v)`. -/
structure JoiField where
  key : String
  jtype : JoiType
  validSet : Option (List Value) := none
  allowNull : Bool := false
  required : Bool := false
  defaultVal : Option Value := none
deriving DecidableEq, Repr

/-- A Joi object schema: its `_inner.children`, in declaration order. -/
abbrev JoiSchema := List JoiField

/-- The validation error thrown by `validateSave`: Joi's error (offending
key and reason) plus the `tableName` the repository assigns onto it before
throwing.  A plain `new Error()` thrown by another saving hook is embedded
with an empty key and reason `"Error"`. -/
structure VError where
  key : String
  reason : String
  tableName : Option String := none
deriving DecidableEq, Repr

/-- Joi base-type check.  A bcrypt digest is a string at runtime, so it
passes `Joi.string()`.  (Joi's date coercion of strings/numbers is not
exercised by any claim and is not modelled.) -/
def typeCheck : JoiType → Value → Bool
  | JoiType.anyT, _ => true
  | JoiType.strT, Value.vStr _ => true
  | JoiType.strT, Value.vDigest _ _ => true
  | JoiType.strT, _ => false
  | JoiType.dateT, Value.vDate _ => true
  | JoiType.dateT, _ => false

/-- Check one present value against its field schema: `.allow(null)`
whitelists null, `.valid(...)` is an exclusive whitelist, otherwise the
base type must match. -/
def checkValue (f : JoiField) (v : Value) : Option String :=
  if f.allowNull && v == Value.vNull then none
  else
    match f.validSet with
    | some vs => if vs.contains v then none else some "must be one of the allowed values"
    | none => if typeCheck f.jtype v then none else some "has wrong type"

/-- Check one schema field against the object: a present value is checked,
an absent required field errors, an absent optional field is fine. -/
def checkField (f : JoiField) (obj : Attrs) : Option VError :=
  match lookupAttr obj f.key with
  | some v =>
    match checkValue f v with
    | some r => some { key := f.key, reason := r }
    | none => none
  | none =>
    if f.required then some { key := f.key, reason := "is required" } else none

/-- First schema-field error (Joi validates with `abortEarly`, its default). -/
def firstError : JoiSchema → Attrs → Option VError
  | [], _ => none
  | f :: fs, obj =>
    match checkField f obj with
    | some e => some e
    | none => firstError fs obj

/-- First object key that is not declared in the schema (Joi objects reject
unknown keys by default). -/
def firstUnknown (schema : JoiSchema) (obj : Attrs) : Option String :=
  (obj.find? (fun kv => !(schema.any (fun f => f.key = kv.1)))).map (fun kv => kv.1)

/-- Joi's returned `value`: the input plus schema defaults for absent
fields that declare one. -/
def applyDefaults (schema : JoiSchema) (obj : Attrs) : Attrs :=
  schema.foldl
    (fun acc f =>
      match lookupAttr acc f.key with
      | some _ => acc
      | none =>
        match f.defaultVal with
        | some d => acc ++ [(f.key, d)]
        | none => acc)
    obj

/-- Validation `Joi.validate(obj, schema)` for the object schemas the repository
builds: returns the first error, or the validated value (input plus
defaults). -/
def validateObject (schema : JoiSchema) (obj : Attrs) : Except VError Attrs :=
  match firstError schema obj with
  | some e => Except.error e
  | none =>
    match firstUnknown schema obj with
    | some k => Except.error { key := k, reason := "is not allowed" }
    | none => Except.ok (applyDefaults schema obj)

/-- Relaxation `schema.optionalKeys(ks)`: mark the named keys optional. -/
def optionalKeysFn (schema : JoiSchema) (ks : List String) : JoiSchema :=
  schema.map (fun f => if ks.contains f.key then { f with required := false } else f)

/-- The schema actually used in the relaxed branch of `validateSave`
(part_000 lines 501-507): `optionalKeys` is skipped when the key list is
empty, because Joi's `optionalKeys` rejects empty arrays. -/
def relaxedSchema (schema : JoiSchema) (ks : List String) : JoiSchema :=
  if ks.isEmpty then schema else optionalKeysFn schema ks

/-- The function `lodash.difference(a, b)`: elements of `a` not in `b`, in order. -/
def differenceL (a b : List String) : List String :=
  a.filter (fun x => !(b.contains x))

/-- The `hasSecurePassword` declaration: `false`, `true`, or a custom digest
column name string (part_000 lines 365-374). -/
inductive SecurePasswordCfg where
  | off : SecurePasswordCfg
  | on : SecurePasswordCfg
  | custom : String → SecurePasswordCfg
deriving DecidableEq, Repr

/-- JS truthiness of `this.hasSecurePassword` as tested by the constructor:
`false` and the empty string are falsy. -/
def securePasswordEnabled : SecurePasswordCfg → Bool
  | SecurePasswordCfg.off => false
  | SecurePasswordCfg.on => true
  | SecurePasswordCfg.custom s => s ≠ ""

/-- The save options the saving hooks inspect: `options.method` and
`options.patch` (part_000 line 492). -/
structure SaveOptions where
  method : Option String := none
  patch : Option Bool := none
deriving DecidableEq, Repr

/-- In-memory state of one bookshelf model instance, restricted to what the
repository reads and writes: the persisted attribute map, `isNew()`, the
`__password` staging slot written by the `password` virtual's setter
(`none` = undefined), and the per-class configuration. -/
structure MState where
  attributes : Attrs := []
  isNewRec : Bool := true
  stagedPassword : Option Value := none
  tableName : String := ""
  validate : Option JoiSchema := none
  securePassword : SecurePasswordCfg := SecurePasswordCfg.off
  bcryptRounds : Option Int := none
deriving DecidableEq, Repr

/-- The helper `passwordDigestField` (part_000 lines 365-374): the custom column name
when `hasSecurePassword` is a string, else `'passwordDigest'`. -/
def digestFieldOf (m : MState) : String :=
  match m.securePassword with
  | SecurePasswordCfg.custom s => s
  | _ => "passwordDigest"

/-- The helper `bcryptRounds` (part_000 lines 382-391): the per-class integer when
declared, else the default 12.  (A declared non-integer number falls back
to the default in the source; only integers are representable here.) -/
def bcryptRoundsOf (m : MState) : Int :=
  match m.bcryptRounds with
  | some n => n
  | none => 12

/-- Assignment `model.set(hash)` for an attribute object: each binding is assigned in
order, except that the `password` key is a virtual whose setter stores the
value into the `__password` slot instead of the attribute map (part_000
lines 404-410, via bookshelf-virtuals-plugin). -/
def setModelAttrs (m : MState) (attrs : Attrs) : MState :=
  attrs.foldl
    (fun st kv =>
      if kv.1 = "password" then { st with stagedPassword := some kv.2 }
      else { st with attributes := setAttrKV st.attributes kv.1 kv.2 })
    m

/-- The function `hash(value, rounds)` (part_000 lines 345-357): null maps to null, an
empty value (undefined, null, or empty string coercion — null is caught by
the first branch) maps to undefined, anything else is bcrypt-hashed with
`rounds` salt rounds. -/
def hashFn (value : Option Value) (rounds : Int) : Option Value :=
  if value = some Value.vNull then some Value.vNull
  else if jsIsEmpty value then none
  else some (Value.vDigest rounds (value.getD Value.vNull))

/-- The saving hook registered by `enablePasswordHashing` (part_000 lines
412-422): read the staged `__password`, hash it with the configured rounds,
`unset('password')` (the virtual's setter runs with undefined, clearing the
staging slot; the attribute map never holds a `password` key), and write
the hash into the digest column unless it is undefined. -/
def passwordHashingHook (m : MState) : MState :=
  let hashed := hashFn m.stagedPassword (bcryptRoundsOf m)
  let m1 := { m with stagedPassword := none }
  match hashed with
  | none => m1
  | some v => { m1 with attributes := setAttrKV m1.attributes (digestFieldOf m) v }

/-- The options side of `validateSave`'s branch condition:
`options && (options.method === 'update' || options.patch === true)`. -/
def markedUpdateOrPatch : Option SaveOptions → Bool
  | none => false
  | some o => o.method == some "update" || o.patch == some true

/-- The hook `validateSave(model, attrs, options)` (part_000 lines 488-520).
`modelPresent` is the truthiness of the `model` argument; in a real save
the framework passes the model itself, so `model.isNew()` is
`self.isNewRec`.  The relaxed branch validates only the payload against
the schema with the untouched schema keys made optional; the full branch
validates `this.attributes` against the schema.  On error the model's
`tableName` is attached and the error thrown; on success
`this.set(validation.value)` commits the validated value. -/
def validateSave (self : MState) (modelPresent : Bool) (attrs : Attrs)
    (options : Option SaveOptions) : Except VError (MState × Attrs) :=
  let schema := self.validate.getD []
  let validation :=
    if (modelPresent && !self.isNewRec) || markedUpdateOrPatch options then
      validateObject
        (relaxedSchema schema
          (differenceL (schema.map (fun f => f.key)) (attrKeys attrs)))
        attrs
    else
      validateObject schema self.attributes
  match validation with
  | Except.error e => Except.error { e with tableName := some self.tableName }
  | Except.ok value => Except.ok (setModelAttrs self value, value)

/-- The spec's wording of the relaxation (spec §4.1 step 3): every schema
field name not present in this call's payload is made
optional-for-this-validation. -/
def optionalKeysSpec (schema : JoiSchema) (attrs : Attrs) : JoiSchema :=
  schema.map
    (fun f => if lookupAttr attrs f.key = none then { f with required := false } else f)

/-- The hook `validateSave` as the spec words it (spec §4.1 steps 1-5): full mode —
the entire current attribute mapping against the complete schema — exactly
when the record is new and the save is not marked update/patch, otherwise
partial mode over the payload with untouched fields made optional.  Stated
for comparison with `validateSave`. -/
def validateSaveSpec (self : MState) (attrs : Attrs)
    (options : Option SaveOptions) : Except VError (MState × Attrs) :=
  let schema := self.validate.getD []
  let validation :=
    if self.isNewRec && !markedUpdateOrPatch options then
      validateObject schema self.attributes
    else
      validateObject (optionalKeysSpec schema attrs) attrs
  match validation with
  | Except.error e => Except.error { e with tableName := some self.tableName }
  | Except.ok value => Except.ok (setModelAttrs self value, value)

/-- Failure mode of the constructor's schema augmentation. -/
inductive CtorError where
  | joeReferenceError : CtorError
deriving DecidableEq, Repr

/-- The object `baseValidation` (part_000 lines 464-469): implicitly optional `id`,
`createdAt`, `updatedAt`. -/
def baseValidationFields : List JoiField :=
  [ { key := "id", jtype := JoiType.anyT },
    { key := "createdAt", jtype := JoiType.dateT },
    { key := "updatedAt", jtype := JoiType.dateT } ]

/-- Merging `schema.keys(extra)`: merge the extra fields into the schema,
overriding same-named fields. -/
def joiKeys (s : JoiSchema) (extra : List JoiField) : JoiSchema :=
  extra.foldl
    (fun acc f =>
      if acc.any (fun g => g.key = f.key) then
        acc.map (fun g => if g.key = f.key then f else g)
      else acc ++ [f])
    s

/-- The schema the constructor builds from a declared `validate` (part_000
lines 463-480).  When `hasSecurePassword` is truthy the source executes
`baseValidation.passwordDigest = Joe.string().optional();` — `Joe` is an
undefined identifier, so construction throws a ReferenceError instead of
adding the optional digest field. -/
def buildValidateSchema (hasSecurePassword : Bool) (declared : JoiSchema) :
    Except CtorError JoiSchema :=
  if hasSecurePassword then Except.error CtorError.joeReferenceError
  else Except.ok (joiKeys declared baseValidationFields)

/-- The saving hooks relevant to the claims: the password-hashing hook, the
validation hook, and an extra caller-registered hook that throws (as in
test/password_hashing.test.js lines 95-123). -/
inductive SaveHook where
  | hashing : SaveHook
  | validating : SaveHook
  | failing : SaveHook
deriving DecidableEq, Repr

/-- The saving hooks registered by the constructor, in registration order
(part_000 lines 458-483, and lines 99-119 of the first variant, which
reaches the validation registration for secure-password models because it
lacks the digest-augmentation line): `enablePasswordHashing` first, then
`this.on('saving', this.validateSave)`. -/
def constructorHooks (m : MState) : List SaveHook :=
  (if securePasswordEnabled m.securePassword then [SaveHook.hashing] else []) ++
    (if m.validate.isSome then [SaveHook.validating] else [])

/-- The `new Error()` thrown by the extra test hook, embedded into the
pipeline's single error type. -/
def genericVError : VError := { key := "", reason := "Error" }

/-- Run one saving hook on the model. -/
def runHook (h : SaveHook) (m : MState) (attrs : Attrs)
    (opts : Option SaveOptions) : MState × Option VError :=
  match h with
  | SaveHook.hashing => (passwordHashingHook m, none)
  | SaveHook.validating =>
    match validateSave m true attrs opts with
    | Except.ok (m', _) => (m', none)
    | Except.error e => (m, some e)
  | SaveHook.failing => (m, some genericVError)

/-- Run the saving hooks in order, stopping at the first rejection and
returning the model state reached so far together with the error. -/
def runHooks : List SaveHook → MState → Attrs → Option SaveOptions →
    MState × Option VError
  | [], m, _, _ => (m, none)
  | h :: hs, m, attrs, opts =>
    match runHook h m attrs opts with
    | (m', none) => runHooks hs m' attrs opts
    | (m', some e) => (m', some e)

/-- Modelled from the spec: the persistence framework's save lifecycle
(spec §6, consumed hook registration) is not part of this repository; per
the spec it sets the payload into the model, then awaits each registered
pre-persist callback in order and aborts the write on rejection. -/
def saveAttempt (hooks : List SaveHook) (m : MState) (attrs : Attrs)
    (opts : Option SaveOptions) : MState × Option VError :=
  runHooks hooks (setModelAttrs m attrs) attrs opts

/-- Modelled from the spec: the underlying write happens only when every
pre-persist hook succeeded (spec §6: "framework must await it and abort
the write on rejection"); a successful save appends the model's reconciled
attributes to the store. -/
def saveWithDb (db : List Attrs) (hooks : List SaveHook) (m : MState)
    (attrs : Attrs) (opts : Option SaveOptions) :
    List Attrs × MState × Option VError :=
  match saveAttempt hooks m attrs opts with
  | (m', none) => (db ++ [m'.attributes], m', none)
  | (m', some e) => (db, m', some e)

/-- Outcome of `authenticate`: a distinguishable password-mismatch
condition (the `PasswordMismatchError` class the tests require from
`src/PasswordMismatchError`) versus the generic usage error raised when
the model has no secure-password behavior. -/
inductive AuthError where
  | passwordMismatch : AuthError
  | usageError : AuthError
deriving DecidableEq, Repr

/-- Verification `bcrypt.compareSync(candidate, digest)` in the abstract digest model: a
candidate matches exactly the digest computed from the same plaintext. -/
def bcryptCompareSync (candidate : String) (digest : Value) : Bool :=
  match digest with
  | Value.vDigest _ (Value.vStr p) => candidate == p
  | _ => false

/-- Modelled from the spec: the `authenticate` operation (spec §4.2) and
`PasswordMismatchError` are exercised by test/password_hashing.test.js but
their implementation is not under src/.  Per the spec it rejects with the
mismatch condition when no candidate is supplied, when the stored digest
is absent, or when the candidate does not match; it resolves with the
model only on a match against a present digest. -/
def authenticate (m : MState) (candidate : Option String) :
    Except AuthError MState :=
  if !securePasswordEnabled m.securePassword then Except.error AuthError.usageError
  else
    match candidate with
    | none => Except.error AuthError.passwordMismatch
    | some c =>
      match lookupAttr m.attributes (digestFieldOf m) with
      | none => Except.error AuthError.passwordMismatch
      | some d =>
        if bcryptCompareSync c d then Except.ok m
        else Except.error AuthError.passwordMismatch

/-- Row matching for `fetch`: `forge(query).fetch` selects rows whose columns
equal every binding of the query. -/
def matchesRow (row : Attrs) (q : Attrs) : Bool :=
  q.all (fun kv => lookupAttr row kv.1 == some kv.2)

/-- First matching row of the store with its index (`findOne` with
`require: false` resolves null when nothing matches). -/
def findOneRowAux : Nat → List Attrs → Attrs → Option (Nat × Attrs)
  | _, [], _ => none
  | i, row :: rest, q =>
    if matchesRow row q then some (i, row) else findOneRowAux (i + 1) rest q

/-- Selection `this.findOne(selectData, options)` over the row store. -/
def findOneRow (db : List Attrs) (q : Attrs) : Option (Nat × Attrs) :=
  findOneRowAux 0 db q

/-- The effective save options of `upsert`'s found branch:
`extend({ patch: true, method: 'update' }, options)` — caller options win
on collision. -/
def upsertFoundOptions (options : Attrs) : Attrs :=
  extendAttrs [("patch", Value.vBool true), ("method", Value.vStr "update")] options

/-- The effective save options of `upsert`'s not-found branch:
`extend(options, { method: 'insert' })` — the forced insert method wins. -/
def upsertCreateOptions (options : Attrs) : Attrs :=
  extendAttrs options [("method", Value.vStr "insert")]

/-- Modelled from the spec: the auto-increment identifier the external
storage assigns on insert when the inserted data carries none. -/
def freshId (db : List Attrs) : Int :=
  (db.foldl
    (fun acc row =>
      match lookupAttr row "id" with
      | some (Value.vNum n) => max acc n
      | _ => acc)
    0) + 1

/-- The operation `upsert(selectData, updateData, options)` (part_000 lines 619-634) over
the row store.  Returns the new store, the resulting record, and the
effective options passed to the underlying save/create.  The found branch
patches the matched row with `updateData`; the not-found branch inserts
`extend(selectData, updateData)` (update payload winning), the storage
assigning an identifier only when the merged data has none. -/
def upsert (db : List Attrs) (selectData updateData options : Attrs) :
    List Attrs × Attrs × Attrs :=
  match findOneRow db selectData with
  | some (i, row) =>
    let patched := extendAttrs row updateData
    (db.set i patched, patched, upsertFoundOptions options)
  | none =>
    let merged := extendAttrs selectData updateData
    let inserted :=
      match lookupAttr merged "id" with
      | some _ => merged
      | none => setAttrKV merged "id" (Value.vNum (freshId db))
    (db ++ [inserted], inserted, upsertCreateOptions options)

/-- A string with nonzero length is not the empty string, as a Bool test. -/
lemma length_beq_zero_false {s : String} (h : s ≠ "") : (s.length == 0) = false := by
  simp only [beq_eq_false_iff_ne, ne_eq]
  intro h0
  apply h
  cases s with
  | mk data =>
    simp [String.length] at h0
    simp [h0]

/-- Lookup distributes over list append, preferring the left part. -/
lemma lookupAttr_append (a b : Attrs) (k : String) :
    lookupAttr (a ++ b) k =
      match lookupAttr a k with
      | some v => some v
      | none => lookupAttr b k := by
  induction a with
  | nil => simp [lookupAttr]
  | cons kv rest ih =>
    obtain ⟨k1, v1⟩ := kv
    by_cases h : k1 = k
    · simp [lookupAttr, h]
    · simp [lookupAttr, h, ih]

/-- A key is absent exactly when it is not among the object's keys. -/
lemma lookupAttr_eq_none_iff (a : Attrs) (k : String) :
    lookupAttr a k = none ↔ ¬ k ∈ attrKeys a := by
  induction a with
  | nil => simp [lookupAttr, attrKeys]
  | cons kv rest ih =>
    obtain ⟨k1, v1⟩ := kv
    by_cases h : k1 = k
    · simp [lookupAttr, attrKeys, h]
    · simp [lookupAttr, attrKeys, h, ih, Ne.symm h]

/-- Key absence is stable under list reversal. -/
lemma lookupAttr_reverse_eq_none (a : Attrs) (k : String) :
    lookupAttr a.reverse k = none ↔ lookupAttr a k = none := by
  rw [lookupAttr_eq_none_iff, lookupAttr_eq_none_iff]
  unfold attrKeys
  rw [List.map_reverse]
  simp

/-- In-place key replacement over the pair list, used by `setAttrKV` when
the key exists: the lookup of that key yields the new value. -/
lemma lookup_map_assign_self (a : Attrs) (k : String) (v : Value)
    (h : a.any (fun kv => kv.1 = k) = true) :
    lookupAttr (a.map (fun kv => if kv.1 = k then (k, v) else kv)) k = some v := by
  induction a with
  | nil => simp at h
  | cons kv rest ih =>
    obtain ⟨k1, v1⟩ := kv
    rw [List.map_cons]
    by_cases hk : k1 = k
    · show lookupAttr ((if (k1, v1).1 = k then (k, v) else (k1, v1)) :: _) k = some v
      rw [if_pos hk]
      simp [lookupAttr]
    · show lookupAttr ((if (k1, v1).1 = k then (k, v) else (k1, v1)) :: _) k = some v
      rw [if_neg hk]
      have h' : rest.any (fun kv => kv.1 = k) = true := by simpa [hk] using h
      simp [lookupAttr, hk, ih h']

/-- In-place key replacement leaves every other key's lookup unchanged. -/
lemma lookup_map_assign_other (a : Attrs) (k k' : String) (v : Value)
    (h : k' ≠ k) :
    lookupAttr (a.map (fun kv => if kv.1 = k then (k, v) else kv)) k' =
      lookupAttr a k' := by
  induction a with
  | nil => simp
  | cons kv rest ih =>
    obtain ⟨k1, v1⟩ := kv
    rw [List.map_cons]
    by_cases hk : k1 = k
    · show lookupAttr ((if (k1, v1).1 = k then (k, v) else (k1, v1)) :: _) k' = _
      rw [if_pos hk]
      subst hk
      simp [lookupAttr, Ne.symm h, ih]
    · show lookupAttr ((if (k1, v1).1 = k then (k, v) else (k1, v1)) :: _) k' = _
      rw [if_neg hk]
      simp [lookupAttr, ih]

/-- Assigning a key makes it present with the assigned value. -/
lemma lookupAttr_setAttrKV_self (a : Attrs) (k : String) (v : Value) :
    lookupAttr (setAttrKV a k v) k = some v := by
  unfold setAttrKV
  by_cases h : a.any (fun kv => kv.1 = k)
  · rw [if_pos h]
    exact lookup_map_assign_self a k v h
  · rw [if_neg h]
    rw [lookupAttr_append]
    have hnone : lookupAttr a k = none := by
      rw [lookupAttr_eq_none_iff]
      intro hmem
      apply h
      rw [List.any_eq_true]
      unfold attrKeys at hmem
      obtain ⟨kv, hkv, hfst⟩ := List.mem_map.mp hmem
      exact ⟨kv, hkv, by simp [hfst]⟩
    simp [hnone, lookupAttr]

/-- Assigning one key leaves every other key's lookup unchanged. -/
lemma lookupAttr_setAttrKV_other (a : Attrs) (k k' : String) (v : Value)
    (h : k' ≠ k) : lookupAttr (setAttrKV a k v) k' = lookupAttr a k' := by
  unfold setAttrKV
  by_cases hc : a.any (fun kv => kv.1 = k)
  · rw [if_pos hc]
    exact lookup_map_assign_other a k k' v h
  · rw [if_neg hc]
    rw [lookupAttr_append]
    cases hl : lookupAttr a k' with
    | some v' => simp
    | none => simp [lookupAttr, Ne.symm h]

/-- The assignment `setModelAttrs` only touches `attributes` and `stagedPassword`; the
model's configuration and lifecycle flags are untouched. -/
lemma setModelAttrs_config (attrs : Attrs) (m : MState) :
    (setModelAttrs m attrs).isNewRec = m.isNewRec ∧
    (setModelAttrs m attrs).tableName = m.tableName ∧
    (setModelAttrs m attrs).validate = m.validate ∧
    (setModelAttrs m attrs).securePassword = m.securePassword ∧
    (setModelAttrs m attrs).bcryptRounds = m.bcryptRounds := by
  induction attrs generalizing m with
  | nil => simp [setModelAttrs]
  | cons kv rest ih =>
    obtain ⟨k1, v1⟩ := kv
    by_cases h : k1 = "password" <;>
      simpa [setModelAttrs, h] using
        ih (if k1 = "password" then { m with stagedPassword := some v1 }
            else { m with attributes := setAttrKV m.attributes k1 v1 })

/-- After `setModelAttrs`, a non-`password` key holds the last value the
payload assigned to it, or its previous value if the payload never did. -/
lemma setModelAttrs_lookup (attrs : Attrs) (m : MState) (k : String)
    (hk : k ≠ "password") :
    lookupAttr (setModelAttrs m attrs).attributes k =
      match lookupAttr attrs.reverse k with
      | some v => some v
      | none => lookupAttr m.attributes k := by
  induction attrs generalizing m with
  | nil => simp [setModelAttrs, lookupAttr]
  | cons kv rest ih =>
    obtain ⟨k1, v1⟩ := kv
    have hstep : setModelAttrs m ((k1, v1) :: rest) =
        setModelAttrs
          (if k1 = "password" then { m with stagedPassword := some v1 }
           else { m with attributes := setAttrKV m.attributes k1 v1 }) rest := by
      simp [setModelAttrs]
    rw [hstep, ih]
    have hrev : ((k1, v1) :: rest).reverse = rest.reverse ++ [(k1, v1)] := by simp
    rw [hrev, lookupAttr_append]
    cases hrest : lookupAttr rest.reverse k with
    | some v => simp
    | none =>
      by_cases h1 : k1 = "password"
      · have hne : ¬ ("password" : String) = k := fun hh => hk hh.symm
        simp [h1, lookupAttr, hne]
      · by_cases h2 : k1 = k
        · subst h2
          simp [h1, lookupAttr, lookupAttr_setAttrKV_self]
        · simp [h1, lookupAttr, h2, lookupAttr_setAttrKV_other _ _ _ _ (Ne.symm h2)]

/-- After `setModelAttrs`, the staging slot holds the last value the payload
assigned to `password`, or its previous content otherwise. -/
lemma setModelAttrs_staged (attrs : Attrs) (m : MState) :
    (setModelAttrs m attrs).stagedPassword =
      match lookupAttr attrs.reverse "password" with
      | some v => some v
      | none => m.stagedPassword := by
  induction attrs generalizing m with
  | nil => simp [setModelAttrs, lookupAttr]
  | cons kv rest ih =>
    obtain ⟨k1, v1⟩ := kv
    have hstep : setModelAttrs m ((k1, v1) :: rest) =
        setModelAttrs
          (if k1 = "password" then { m with stagedPassword := some v1 }
           else { m with attributes := setAttrKV m.attributes k1 v1 }) rest := by
      simp [setModelAttrs]
    rw [hstep, ih]
    have hrev : ((k1, v1) :: rest).reverse = rest.reverse ++ [(k1, v1)] := by simp
    rw [hrev, lookupAttr_append]
    cases hrest : lookupAttr rest.reverse "password" with
    | some v => simp
    | none =>
      by_cases h1 : k1 = "password"
      · subst h1
        simp [lookupAttr]
      · simp [h1, lookupAttr]

/-- After `extend(a, b)`, a key holds `b`'s last binding for it when one
exists, and `a`'s binding otherwise. -/
lemma extendAttrs_lookup (b a : Attrs) (k : String) :
    lookupAttr (extendAttrs a b) k =
      match lookupAttr b.reverse k with
      | some v => some v
      | none => lookupAttr a k := by
  induction b generalizing a with
  | nil => simp [extendAttrs, lookupAttr]
  | cons kv rest ih =>
    obtain ⟨k1, v1⟩ := kv
    have hstep : extendAttrs a ((k1, v1) :: rest) =
        extendAttrs (setAttrKV a k1 v1) rest := by
      simp [extendAttrs]
    rw [hstep, ih]
    have hrev : ((k1, v1) :: rest).reverse = rest.reverse ++ [(k1, v1)] := by simp
    rw [hrev, lookupAttr_append]
    cases hrest : lookupAttr rest.reverse k with
    | some v => simp
    | none =>
      by_cases h2 : k1 = k
      · subst h2
        simp [lookupAttr, lookupAttr_setAttrKV_self]
      · simp [lookupAttr, h2, lookupAttr_setAttrKV_other _ _ _ _ (Ne.symm h2)]

/-- The function `applyDefaults` only appends bindings after the input object. -/
lemma applyDefaults_shape (schema : JoiSchema) (obj : Attrs) :
    ∃ extra, applyDefaults schema obj = obj ++ extra := by
  induction schema generalizing obj with
  | nil => exact ⟨[], by simp [applyDefaults]⟩
  | cons f fs ih =>
    have hstep : applyDefaults (f :: fs) obj =
        applyDefaults fs
          (match lookupAttr obj f.key with
           | some _ => obj
           | none =>
             match f.defaultVal with
             | some d => obj ++ [(f.key, d)]
             | none => obj) := by
      simp [applyDefaults]
    rw [hstep]
    cases h1 : lookupAttr obj f.key with
    | some v => simpa using ih obj
    | none =>
      cases h2 : f.defaultVal with
      | none => simpa using ih obj
      | some d =>
        obtain ⟨extra, he⟩ := ih (obj ++ [(f.key, d)])
        exact ⟨(f.key, d) :: extra, by simp [he]⟩

/-- A key present in the input keeps its value through `applyDefaults`. -/
lemma applyDefaults_lookup_present (schema : JoiSchema) (obj : Attrs)
    (k : String) (v : Value) (h : lookupAttr obj k = some v) :
    lookupAttr (applyDefaults schema obj) k = some v := by
  obtain ⟨extra, he⟩ := applyDefaults_shape schema obj
  rw [he, lookupAttr_append, h]

/-- The password-hashing hook touches only `attributes` and the staging
slot; configuration and lifecycle flags are untouched. -/
lemma passwordHashingHook_config (m : MState) :
    (passwordHashingHook m).isNewRec = m.isNewRec ∧
    (passwordHashingHook m).tableName = m.tableName ∧
    (passwordHashingHook m).validate = m.validate ∧
    (passwordHashingHook m).securePassword = m.securePassword ∧
    (passwordHashingHook m).bcryptRounds = m.bcryptRounds := by
  unfold passwordHashingHook
  cases hashFn m.stagedPassword (bcryptRoundsOf m) with
  | none => simp
  | some v => simp

/-- The digest column name depends only on the secure-password
configuration. -/
lemma digestFieldOf_congr {m m' : MState}
    (h : m.securePassword = m'.securePassword) :
    digestFieldOf m = digestFieldOf m' := by
  unfold digestFieldOf
  rw [h]

/-- The configured rounds depend only on the `bcryptRounds` declaration. -/
lemma bcryptRoundsOf_congr {m m' : MState}
    (h : m.bcryptRounds = m'.bcryptRounds) :
    bcryptRoundsOf m = bcryptRoundsOf m' := by
  unfold bcryptRoundsOf
  rw [h]

/-- The hashing hook always clears the staging slot. -/
lemma passwordHashingHook_staged (m : MState) :
    (passwordHashingHook m).stagedPassword = none := by
  unfold passwordHashingHook
  cases hashFn m.stagedPassword (bcryptRoundsOf m) with
  | none => simp
  | some v => simp

/-- With nothing staged, the hashing hook leaves the attribute map alone. -/
lemma passwordHashingHook_noop (m : MState) (h : m.stagedPassword = none) :
    (passwordHashingHook m).attributes = m.attributes := by
  unfold passwordHashingHook
  rw [h]
  simp [hashFn, jsIsEmpty]

/-- With a nonempty string staged, the hashing hook writes the bcrypt
digest of that string, computed with the configured rounds, into the
configured digest column. -/
lemma passwordHashingHook_writes (m : MState) (s : String)
    (hst : m.stagedPassword = some (Value.vStr s)) (hne : s ≠ "") :
    (passwordHashingHook m).attributes =
      setAttrKV m.attributes (digestFieldOf m)
        (Value.vDigest (bcryptRoundsOf m) (Value.vStr s)) := by
  unfold passwordHashingHook
  rw [hst]
  have hhash : hashFn (some (Value.vStr s)) (bcryptRoundsOf m) =
      some (Value.vDigest (bcryptRoundsOf m) (Value.vStr s)) := by
    unfold hashFn jsIsEmpty jsToStringV
    simp [length_beq_zero_false hne]
  rw [hhash]

/-- Whenever `validateSave` throws, the thrown error carries the model's
table name. -/
lemma validateSave_error_tableName (self : MState) (mp : Bool) (attrs : Attrs)
    (opts : Option SaveOptions) (e : VError)
    (h : validateSave self mp attrs opts = Except.error e) :
    e.tableName = some self.tableName := by
  unfold validateSave at h
  split at h <;>
    · dsimp only [] at h
      split at h
      · injection h with h1
        rw [← h1]
      · simp at h

/-- Membership in `lodash.difference`. -/
lemma mem_differenceL {a b : List String} {k : String} :
    k ∈ differenceL a b ↔ k ∈ a ∧ ¬ k ∈ b := by
  unfold differenceL
  simp

/-- The schema used by `validateSave`'s relaxed branch — the schema keys
minus the payload keys, marked optional via `optionalKeys` (skipped when
that difference is empty) — is the schema the spec describes: every field
whose key is absent from the payload marked optional. -/
lemma relaxed_eq_spec (schema : JoiSchema) (attrs : Attrs) :
    relaxedSchema schema
      (differenceL (schema.map (fun f => f.key)) (attrKeys attrs)) =
    optionalKeysSpec schema attrs := by
  unfold relaxedSchema
  by_cases he :
      (differenceL (schema.map (fun f => f.key)) (attrKeys attrs)).isEmpty
  · rw [if_pos he]
    have hnil : differenceL (schema.map (fun f => f.key)) (attrKeys attrs) = [] :=
      List.isEmpty_iff.mp he
    have hall : ∀ f ∈ schema, ¬ lookupAttr attrs f.key = none := by
      intro f hf hnone
      have hmem : f.key ∈ differenceL (schema.map (fun f => f.key)) (attrKeys attrs) :=
        mem_differenceL.mpr
          ⟨List.mem_map.mpr ⟨f, hf, rfl⟩, (lookupAttr_eq_none_iff attrs f.key).mp hnone⟩
      rw [hnil] at hmem
      simp at hmem
    unfold optionalKeysSpec
    have hcongr : ∀ f ∈ schema,
        (if lookupAttr attrs f.key = none then { f with required := false } else f) =
          id f := by
      intro f hf
      simp [hall f hf]
    rw [List.map_congr_left hcongr, List.map_id]
  · rw [if_neg he]
    unfold optionalKeysFn optionalKeysSpec
    apply List.map_congr_left
    intro f hf
    have hiff :
        (differenceL (schema.map (fun g => g.key)) (attrKeys attrs)).contains f.key = true ↔
          lookupAttr attrs f.key = none := by
      rw [List.contains_iff_exists_mem_beq]
      constructor
      · intro hc
        obtain ⟨x, hx, hbeq⟩ := hc
        have hxk : f.key = x := by simpa using hbeq
        rw [lookupAttr_eq_none_iff]
        rw [hxk]
        exact (mem_differenceL.mp hx).2
      · intro hnone
        refine ⟨f.key, ?_, by simp⟩
        exact mem_differenceL.mpr
          ⟨List.mem_map.mpr ⟨f, hf, rfl⟩, (lookupAttr_eq_none_iff attrs f.key).mp hnone⟩
    by_cases hc : lookupAttr attrs f.key = none
    · rw [if_pos (hiff.mpr hc), if_pos hc]
    · rw [if_neg ?_, if_neg hc]
      intro hcontains
      exact hc (hiff.mp hcontains)

/-- C1: for every save of a model with a validate schema (the framework
passes the model itself as the hook's first argument, so that argument is
present), pre-persist validation runs in full mode — the model's entire
current attribute mapping against the complete schema — exactly when the
record is new and the options do not mark the save as update or patch;
in every other case it validates only this call's payload against the
schema with every schema field name not present in the payload made
optional for this validation.  Stated as: the source's `validateSave`
coincides with `validateSaveSpec`, the spec's wording of steps 1-5. -/
theorem c1_validation_mode (self : MState) (attrs : Attrs)
    (options : Option SaveOptions) :
    validateSave self true attrs options = validateSaveSpec self attrs options := by
  cases hn : self.isNewRec <;> cases hm : markedUpdateOrPatch options <;>
    simp [validateSave, validateSaveSpec, hn, hm, relaxed_eq_spec]

/-- C2: on every save of a secure-password model the hashing hook clears
the transient `password` staging and keeps `password` out of the persisted
attribute set; an absent (undefined) staged value leaves the attributes —
in particular the digest column — completely untouched, an empty-string
staged value writes nothing either, and any other staged string (whitespace
included) writes the bcrypt digest of that string, computed with the
configured work factor, into the configured digest column. -/
theorem c2_password_hashing_cases (m : MState)
    (hinv : lookupAttr m.attributes "password" = none)
    (hfield : digestFieldOf m ≠ "password") :
    (passwordHashingHook m).stagedPassword = none ∧
    lookupAttr (passwordHashingHook m).attributes "password" = none ∧
    (m.stagedPassword = none → (passwordHashingHook m).attributes = m.attributes) ∧
    (m.stagedPassword = some (Value.vStr "") →
      (passwordHashingHook m).attributes = m.attributes) ∧
    (∀ s : String, m.stagedPassword = some (Value.vStr s) → s ≠ "" →
      lookupAttr (passwordHashingHook m).attributes (digestFieldOf m) =
        some (Value.vDigest (bcryptRoundsOf m) (Value.vStr s))) := by
  refine ⟨passwordHashingHook_staged m, ?_, ?_, ?_, ?_⟩
  · unfold passwordHashingHook
    cases hh : hashFn m.stagedPassword (bcryptRoundsOf m) with
    | none => simpa using hinv
    | some v =>
      have hne : ("password" : String) ≠ digestFieldOf m := fun hh2 => hfield hh2.symm
      simpa [lookupAttr_setAttrKV_other _ _ _ _ hne] using hinv
  · intro h
    exact passwordHashingHook_noop m h
  · intro h
    unfold passwordHashingHook
    rw [h]
    simp [hashFn, jsIsEmpty, jsToStringV]
  · intro s hst hne
    rw [passwordHashingHook_writes m s hst hne, lookupAttr_setAttrKV_self]

/-- Concrete secure-password model with a whitespace-only staged password,
for the C2 witness. -/
def c2model : MState :=
  { attributes := [("id", Value.vNum 1)], isNewRec := true,
    stagedPassword := some (Value.vStr "  "),
    tableName := "secured_password_table",
    securePassword := SecurePasswordCfg.on }

/-- C2 witness: on a concrete model staging the whitespace-only string,
the hook clears the staging, keeps `password` out of the attributes, and
writes the bcrypt digest of the whitespace string at the default twelve
rounds into `passwordDigest`. -/
theorem c2_password_hashing_cases_witness :
    (passwordHashingHook c2model).stagedPassword = none ∧
    lookupAttr (passwordHashingHook c2model).attributes "password" = none ∧
    lookupAttr (passwordHashingHook c2model).attributes (digestFieldOf c2model) =
      some (Value.vDigest 12 (Value.vStr "  ")) := by
  have h := c2_password_hashing_cases c2model (by decide) (by decide)
  exact ⟨h.1, h.2.1, h.2.2.2.2 "  " rfl (by decide)⟩

/-- C10: staging the literal null and saving writes null into the
configured digest column (clearing any stored digest), unlike an absent
(undefined) staged value — the hash step yields undefined and nothing is
written — and unlike the empty string, which also writes nothing. -/
theorem c10_null_clears_digest (m : MState)
    (hst : m.stagedPassword = some Value.vNull) :
    (passwordHashingHook m).attributes =
      setAttrKV m.attributes (digestFieldOf m) Value.vNull ∧
    lookupAttr (passwordHashingHook m).attributes (digestFieldOf m) =
      some Value.vNull ∧
    (∀ r : Int, hashFn (some Value.vNull) r = some Value.vNull) ∧
    (∀ r : Int, hashFn none r = none) ∧
    (∀ r : Int, hashFn (some (Value.vStr "")) r = none) := by
  have hset : (passwordHashingHook m).attributes =
      setAttrKV m.attributes (digestFieldOf m) Value.vNull := by
    unfold passwordHashingHook
    rw [hst]
    simp [hashFn]
  refine ⟨hset, ?_, ?_, ?_, ?_⟩
  · rw [hset, lookupAttr_setAttrKV_self]
  · intro r
    simp [hashFn]
  · intro r
    simp [hashFn, jsIsEmpty]
  · intro r
    simp [hashFn, jsIsEmpty, jsToStringV]

/-- Concrete secure-password model holding a stored digest with null
staged, for the C10 witness. -/
def c10model : MState :=
  { attributes := [("passwordDigest", Value.vDigest 12 (Value.vStr "old"))],
    isNewRec := false,
    stagedPassword := some Value.vNull,
    tableName := "secured_password_table",
    securePassword := SecurePasswordCfg.on }

/-- C10 witness: staging null on a concrete model with an existing digest
overwrites the digest column with null. -/
theorem c10_null_clears_digest_witness :
    lookupAttr (passwordHashingHook c10model).attributes (digestFieldOf c10model) =
      some Value.vNull :=
  (c10_null_clears_digest c10model rfl).2.1

/-- Concrete secure-password model with a staged password whose save will
be failed by a later hook: the scenario of
test/password_hashing.test.js lines 95-123. -/
def c3model : MState :=
  { attributes := [("id", Value.vNum 1)], isNewRec := true,
    stagedPassword := some (Value.vStr "testing"),
    tableName := "secured_password_table",
    securePassword := SecurePasswordCfg.on }

/-- C3 counterexample: a save aborted by a later hook does NOT leave the
model's attributes as they were before the attempt — the digest computed
by the hashing hook that already ran survives the failure (exactly what
the repository's own retry test asserts). -/
theorem c3_attrs_restored_counterexample :
    (saveAttempt [SaveHook.hashing, SaveHook.failing] c3model [] none).2.isSome = true ∧
    (saveAttempt [SaveHook.hashing, SaveHook.failing] c3model [] none).1.attributes ≠
      c3model.attributes := by
  decide

/-- C3 amended: a save attempt aborted by a later hook leaves the model in
exactly the state the hooks that ran produced — in particular the freshly
computed digest remains in the in-memory attributes — while the transient
password staging is cleared regardless of the failure. -/
theorem c3_failed_save_keeps_hook_changes (m : MState) (attrs : Attrs)
    (opts : Option SaveOptions) (s : String)
    (h1 : (setModelAttrs m attrs).stagedPassword = some (Value.vStr s))
    (h2 : s ≠ "") :
    saveAttempt [SaveHook.hashing, SaveHook.failing] m attrs opts =
      (passwordHashingHook (setModelAttrs m attrs), some genericVError) ∧
    (saveAttempt [SaveHook.hashing, SaveHook.failing] m attrs opts).1.stagedPassword =
      none ∧
    lookupAttr
        (saveAttempt [SaveHook.hashing, SaveHook.failing] m attrs opts).1.attributes
        (digestFieldOf m) =
      some (Value.vDigest (bcryptRoundsOf m) (Value.vStr s)) := by
  have hrun : saveAttempt [SaveHook.hashing, SaveHook.failing] m attrs opts =
      (passwordHashingHook (setModelAttrs m attrs), some genericVError) := by
    simp [saveAttempt, runHooks, runHook]
  refine ⟨hrun, ?_, ?_⟩
  · rw [hrun]
    exact passwordHashingHook_staged _
  · rw [hrun]
    have hw := passwordHashingHook_writes (setModelAttrs m attrs) s h1 h2
    have hcfg := setModelAttrs_config attrs m
    rw [digestFieldOf_congr hcfg.2.2.2.1, bcryptRoundsOf_congr hcfg.2.2.2.2] at hw
    show lookupAttr (passwordHashingHook (setModelAttrs m attrs)).attributes
        (digestFieldOf m) = _
    rw [hw]
    exact lookupAttr_setAttrKV_self _ _ _

/-- C3 amended witness: the concrete retry-test scenario — staged
password, later hook throws — ends with the save rejected, the staging
cleared, and the digest of the staged password present in the attributes. -/
theorem c3_failed_save_keeps_hook_changes_witness :
    saveAttempt [SaveHook.hashing, SaveHook.failing] c3model [] none =
      (passwordHashingHook (setModelAttrs c3model []), some genericVError) ∧
    (saveAttempt [SaveHook.hashing, SaveHook.failing] c3model [] none).1.stagedPassword =
      none ∧
    lookupAttr
        (saveAttempt [SaveHook.hashing, SaveHook.failing] c3model [] none).1.attributes
        (digestFieldOf c3model) =
      some (Value.vDigest 12 (Value.vStr "testing")) :=
  c3_failed_save_keeps_hook_changes c3model [] none "testing" rfl (by decide)

/-- The saving pipelines a secure-password model without a validate schema
runs in the claims: the constructor-wired hashing hook, optionally followed
by an extra caller-registered hook that throws (the retry test). -/
def passwordSaveHooks (withFailing : Bool) : List SaveHook :=
  if withFailing then [SaveHook.hashing, SaveHook.failing] else [SaveHook.hashing]

/-- One save attempt of a secure-password model whose payload does not
touch `password` or the digest column and whose staging is clear: the
staging stays clear, the digest column is untouched, and the configuration
is preserved — whether or not a later hook fails the save. -/
lemma passwordSave_step (m : MState) (attrs : Attrs) (b : Bool)
    (opts : Option SaveOptions)
    (hdp : digestFieldOf m ≠ "password")
    (hst : m.stagedPassword = none)
    (hp : lookupAttr attrs "password" = none)
    (hd : lookupAttr attrs (digestFieldOf m) = none) :
    (saveAttempt (passwordSaveHooks b) m attrs opts).1.stagedPassword = none ∧
    lookupAttr (saveAttempt (passwordSaveHooks b) m attrs opts).1.attributes
        (digestFieldOf m) =
      lookupAttr m.attributes (digestFieldOf m) ∧
    (saveAttempt (passwordSaveHooks b) m attrs opts).1.securePassword =
      m.securePassword ∧
    (saveAttempt (passwordSaveHooks b) m attrs opts).1.bcryptRounds =
      m.bcryptRounds := by
  have hres : (saveAttempt (passwordSaveHooks b) m attrs opts).1 =
      passwordHashingHook (setModelAttrs m attrs) := by
    cases b <;> simp [passwordSaveHooks, saveAttempt, runHooks, runHook]
  have hsett := setModelAttrs_config attrs m
  have hstagedSet : (setModelAttrs m attrs).stagedPassword = none := by
    rw [setModelAttrs_staged]
    rw [(lookupAttr_reverse_eq_none attrs "password").mpr hp]
    exact hst
  have hlookSet : lookupAttr (setModelAttrs m attrs).attributes (digestFieldOf m) =
      lookupAttr m.attributes (digestFieldOf m) := by
    rw [setModelAttrs_lookup attrs m (digestFieldOf m) hdp]
    rw [(lookupAttr_reverse_eq_none attrs (digestFieldOf m)).mpr hd]
  have hhookCfg := passwordHashingHook_config (setModelAttrs m attrs)
  refine ⟨?_, ?_, ?_, ?_⟩
  · rw [hres]
    exact passwordHashingHook_staged _
  · rw [hres, passwordHashingHook_noop _ hstagedSet, hlookSet]
  · rw [hres, hhookCfg.2.2.2.1, hsett.2.2.2.1]
  · rw [hres, hhookCfg.2.2.2.2, hsett.2.2.2.2]

/-- Folding any sequence of save attempts that never restage a password and
never write the digest column directly leaves the digest column exactly as
it started, keeps the staging clear, and preserves the configuration. -/
lemma passwordSave_fold (m0 : MState)
    (steps : List (Bool × Attrs × Option SaveOptions))
    (hdp : digestFieldOf m0 ≠ "password")
    (hsteps : ∀ p ∈ steps, lookupAttr p.2.1 "password" = none ∧
      lookupAttr p.2.1 (digestFieldOf m0) = none) :
    ∀ st : MState, st.securePassword = m0.securePassword →
      st.bcryptRounds = m0.bcryptRounds →
      st.stagedPassword = none →
      lookupAttr
          (steps.foldl
            (fun s p => (saveAttempt (passwordSaveHooks p.1) s p.2.1 p.2.2).1)
            st).attributes (digestFieldOf m0) =
        lookupAttr st.attributes (digestFieldOf m0) ∧
      (steps.foldl
        (fun s p => (saveAttempt (passwordSaveHooks p.1) s p.2.1 p.2.2).1)
        st).stagedPassword = none ∧
      (steps.foldl
        (fun s p => (saveAttempt (passwordSaveHooks p.1) s p.2.1 p.2.2).1)
        st).securePassword = m0.securePassword ∧
      (steps.foldl
        (fun s p => (saveAttempt (passwordSaveHooks p.1) s p.2.1 p.2.2).1)
        st).bcryptRounds = m0.bcryptRounds := by
  induction steps with
  | nil =>
    intro st h1 h2 h3
    exact ⟨rfl, h3, h1, h2⟩
  | cons p rest ih =>
    intro st h1 h2 h3
    have hdf : digestFieldOf st = digestFieldOf m0 := digestFieldOf_congr h1
    have hpayload := hsteps p (List.mem_cons_self p rest)
    have hstep := passwordSave_step st p.2.1 p.1 p.2.2
      (by rw [hdf]; exact hdp) h3 hpayload.1 (by rw [hdf]; exact hpayload.2)
    have hrest : ∀ q ∈ rest, lookupAttr q.2.1 "password" = none ∧
        lookupAttr q.2.1 (digestFieldOf m0) = none := by
      intro q hq
      exact hsteps q (List.mem_cons_of_mem p hq)
    have hfold := ih hrest
      ((saveAttempt (passwordSaveHooks p.1) st p.2.1 p.2.2).1)
      (by rw [hstep.2.2.1]; exact h1)
      (by rw [hstep.2.2.2]; exact h2)
      hstep.1
    have hlist : (p :: rest).foldl
        (fun s q => (saveAttempt (passwordSaveHooks q.1) s q.2.1 q.2.2).1) st =
      rest.foldl (fun s q => (saveAttempt (passwordSaveHooks q.1) s q.2.1 q.2.2).1)
        ((saveAttempt (passwordSaveHooks p.1) st p.2.1 p.2.2).1) := by
      simp
    rw [hlist]
    refine ⟨?_, hfold.2.1, hfold.2.2.1, hfold.2.2.2⟩
    rw [hfold.1]
    rw [← hdf]
    exact hstep.2.1

/-- C4: a secure-password model saved once (successfully or not — the
staging resets after every attempt) and then re-saved any number of times
without restaging `password`, across failing and succeeding attempts in
any order, keeps the stored digest completely unchanged from the state the
first save produced, and the staged plaintext stays absent throughout. -/
theorem c4_digest_stable_across_resaves (m0 : MState) (b0 : Bool) (a0 : Attrs)
    (o0 : Option SaveOptions) (steps : List (Bool × Attrs × Option SaveOptions))
    (hdp : digestFieldOf m0 ≠ "password")
    (hsteps : ∀ p ∈ steps, lookupAttr p.2.1 "password" = none ∧
      lookupAttr p.2.1 (digestFieldOf m0) = none) :
    (saveAttempt (passwordSaveHooks b0) m0 a0 o0).1.stagedPassword = none ∧
    lookupAttr
        (steps.foldl
          (fun s p => (saveAttempt (passwordSaveHooks p.1) s p.2.1 p.2.2).1)
          ((saveAttempt (passwordSaveHooks b0) m0 a0 o0).1)).attributes
        (digestFieldOf m0) =
      lookupAttr ((saveAttempt (passwordSaveHooks b0) m0 a0 o0).1).attributes
        (digestFieldOf m0) ∧
    (steps.foldl
      (fun s p => (saveAttempt (passwordSaveHooks p.1) s p.2.1 p.2.2).1)
      ((saveAttempt (passwordSaveHooks b0) m0 a0 o0).1)).stagedPassword = none := by
  have hres : (saveAttempt (passwordSaveHooks b0) m0 a0 o0).1 =
      passwordHashingHook (setModelAttrs m0 a0) := by
    cases b0 <;> simp [passwordSaveHooks, saveAttempt, runHooks, runHook]
  have hstaged : (saveAttempt (passwordSaveHooks b0) m0 a0 o0).1.stagedPassword =
      none := by
    rw [hres]
    exact passwordHashingHook_staged _
  have hsett := setModelAttrs_config a0 m0
  have hhookCfg := passwordHashingHook_config (setModelAttrs m0 a0)
  have hfold := passwordSave_fold m0 steps hdp hsteps
    ((saveAttempt (passwordSaveHooks b0) m0 a0 o0).1)
    (by rw [hres, hhookCfg.2.2.2.1, hsett.2.2.2.1])
    (by rw [hres, hhookCfg.2.2.2.2, hsett.2.2.2.2])
    hstaged
  exact ⟨hstaged, hfold.1, hfold.2.1⟩

/-- Concrete model for the C4 witness: the retry-test model. -/
def c4model : MState :=
  { attributes := [("id", Value.vNum 1)], isNewRec := true,
    stagedPassword := some (Value.vStr "testing"),
    tableName := "secured_password_table",
    securePassword := SecurePasswordCfg.on }

/-- C4 witness: save once with a staged password and a failing later hook,
then retry with a failing hook and finally save cleanly; the staging is
clear after the first attempt, and the digest written by the first attempt
is byte-for-byte unchanged at the end. -/
theorem c4_digest_stable_across_resaves_witness :
    (saveAttempt (passwordSaveHooks true) c4model [] none).1.stagedPassword = none ∧
    lookupAttr
        ([((true : Bool), (([] : Attrs), (none : Option SaveOptions))),
          ((false : Bool), (([] : Attrs), (none : Option SaveOptions)))].foldl
          (fun s p => (saveAttempt (passwordSaveHooks p.1) s p.2.1 p.2.2).1)
          ((saveAttempt (passwordSaveHooks true) c4model [] none).1)).attributes
        (digestFieldOf c4model) =
      lookupAttr ((saveAttempt (passwordSaveHooks true) c4model [] none).1).attributes
        (digestFieldOf c4model) ∧
    lookupAttr ((saveAttempt (passwordSaveHooks true) c4model [] none).1).attributes
        (digestFieldOf c4model) =
      some (Value.vDigest 12 (Value.vStr "testing")) := by
  have h := c4_digest_stable_across_resaves c4model true [] none
    [((true : Bool), (([] : Attrs), (none : Option SaveOptions))),
     ((false : Bool), (([] : Attrs), (none : Option SaveOptions)))]
    (by decide) (by decide)
  exact ⟨h.1, h.2.1, by decide⟩

/-- The declared schema of the CRUD test suite, used as the concrete
declared `validate` for C5. -/
def c5declared : JoiSchema :=
  [ { key := "firstName", jtype := JoiType.strT,
      validSet := some [Value.vStr "hello", Value.vStr "goodbye", Value.vStr "yo"],
      required := true },
    { key := "lastName", jtype := JoiType.strT, allowNull := true } ]

/-- C5: without secure-password behavior the constructor does augment the
declared schema with the three implicitly-optional base fields `id`,
`createdAt`, `updatedAt`; but for a model class that also declares
secure-password behavior, the constructor evaluates the undefined
identifier `Joe` (part_000 line 472, `Joe.string().optional()`) and throws
a ReferenceError instead of adding the optional digest field the claim
describes. -/
theorem c5_schema_augmentation (declared : JoiSchema) :
    buildValidateSchema false c5declared =
      Except.ok (c5declared ++ baseValidationFields) ∧
    baseValidationFields.map (fun f => f.key) = ["id", "createdAt", "updatedAt"] ∧
    baseValidationFields.all (fun f => !f.required) = true ∧
    buildValidateSchema true c5declared = Except.error CtorError.joeReferenceError ∧
    buildValidateSchema true declared = Except.error CtorError.joeReferenceError := by
  refine ⟨by rfl, by decide, by decide, by rfl, ?_⟩
  simp [buildValidateSchema]

/-- C5 witness: the failing combination at the concrete declared schema of
the test suite. -/
theorem c5_schema_augmentation_witness :
    buildValidateSchema true c5declared = Except.error CtorError.joeReferenceError :=
  (c5_schema_augmentation c5declared).2.2.2.1

/-- A successful `validateSave` commits exactly the validated value set
into the model. -/
lemma validateSave_ok_commit (self : MState) (mp : Bool) (attrs : Attrs)
    (opts : Option SaveOptions) (m2 : MState) (value : Attrs)
    (h : validateSave self mp attrs opts = Except.ok (m2, value)) :
    m2 = setModelAttrs self value := by
  unfold validateSave at h
  split at h <;>
    · dsimp only [] at h
      split at h
      · simp at h
      · injection h with h1
        have h2 := congrArg Prod.fst h1
        have h3 := congrArg Prod.snd h1
        simp only [] at h2 h3
        rw [← h2, ← h3]

/-- C6: a model class declaring both secure-password behavior and a
validate schema wires its saving hooks in the order hashing first, then
validation; the save pipeline therefore runs validation on the state the
hashing hook produced, in which the configured digest column already holds
the freshly computed digest; and when validation succeeds, the committed
model still carries that digest (the validated value either omits the
digest column or reproduces it). -/
theorem c6_hashing_before_validation (m : MState) (attrs : Attrs)
    (opts : Option SaveOptions) (s : String)
    (hsec : securePasswordEnabled m.securePassword = true)
    (hval : m.validate.isSome = true)
    (hdp : digestFieldOf m ≠ "password")
    (hstaged : (setModelAttrs m attrs).stagedPassword = some (Value.vStr s))
    (hne : s ≠ "") :
    constructorHooks m = [SaveHook.hashing, SaveHook.validating] ∧
    saveAttempt (constructorHooks m) m attrs opts =
      (match validateSave (passwordHashingHook (setModelAttrs m attrs)) true attrs opts with
       | Except.ok (m2, _) => (m2, none)
       | Except.error e => (passwordHashingHook (setModelAttrs m attrs), some e)) ∧
    lookupAttr (passwordHashingHook (setModelAttrs m attrs)).attributes
        (digestFieldOf m) =
      some (Value.vDigest (bcryptRoundsOf m) (Value.vStr s)) ∧
    (∀ m2 value,
      validateSave (passwordHashingHook (setModelAttrs m attrs)) true attrs opts =
        Except.ok (m2, value) →
      (∀ v, lookupAttr value.reverse (digestFieldOf m) = some v →
        v = Value.vDigest (bcryptRoundsOf m) (Value.vStr s)) →
      lookupAttr m2.attributes (digestFieldOf m) =
        some (Value.vDigest (bcryptRoundsOf m) (Value.vStr s))) := by
  have hhooks : constructorHooks m = [SaveHook.hashing, SaveHook.validating] := by
    unfold constructorHooks
    rw [hsec]
    cases hv : m.validate with
    | none => rw [hv] at hval; simp at hval
    | some sc => simp
  have hdig : lookupAttr (passwordHashingHook (setModelAttrs m attrs)).attributes
      (digestFieldOf m) =
      some (Value.vDigest (bcryptRoundsOf m) (Value.vStr s)) := by
    have hw := passwordHashingHook_writes (setModelAttrs m attrs) s hstaged hne
    have hcfg := setModelAttrs_config attrs m
    rw [digestFieldOf_congr hcfg.2.2.2.1, bcryptRoundsOf_congr hcfg.2.2.2.2] at hw
    rw [hw]
    exact lookupAttr_setAttrKV_self _ _ _
  refine ⟨hhooks, ?_, hdig, ?_⟩
  · rw [hhooks]
    cases hvs : validateSave (passwordHashingHook (setModelAttrs m attrs)) true attrs opts with
    | ok pr =>
      obtain ⟨m2, val⟩ := pr
      simp [saveAttempt, runHooks, runHook, hvs]
    | error e =>
      simp [saveAttempt, runHooks, runHook, hvs]
  · intro m2 value hok hv
    have hc := validateSave_ok_commit _ _ _ _ _ _ hok
    rw [hc]
    rw [setModelAttrs_lookup value (passwordHashingHook (setModelAttrs m attrs))
      (digestFieldOf m) hdp]
    cases hrev : lookupAttr value.reverse (digestFieldOf m) with
    | some v => simp [hv v hrev]
    | none => simpa using hdig

/-- Concrete schema accepting the digest column, for the C6 witness. -/
def c6schema : JoiSchema :=
  [ { key := "firstName", jtype := JoiType.strT,
      validSet := some [Value.vStr "hello"], required := true },
    { key := "passwordDigest", jtype := JoiType.strT } ]

/-- Concrete model with both behaviors, for the C6 witness. -/
def c6model : MState :=
  { attributes := [("firstName", Value.vStr "hello")], isNewRec := true,
    stagedPassword := some (Value.vStr "testing"),
    tableName := "users",
    validate := some c6schema,
    securePassword := SecurePasswordCfg.on }

/-- C6 witness: on the concrete model, the constructor wires hashing before
validation, validation runs on a state already carrying the fresh digest,
the whole save succeeds, and the committed attributes still hold that
digest. -/
theorem c6_hashing_before_validation_witness :
    constructorHooks c6model = [SaveHook.hashing, SaveHook.validating] ∧
    lookupAttr (passwordHashingHook (setModelAttrs c6model [])).attributes
        (digestFieldOf c6model) =
      some (Value.vDigest 12 (Value.vStr "testing")) ∧
    (saveAttempt (constructorHooks c6model) c6model [] none).2 = none ∧
    lookupAttr (saveAttempt (constructorHooks c6model) c6model [] none).1.attributes
        (digestFieldOf c6model) =
      some (Value.vDigest 12 (Value.vStr "testing")) := by
  have h := c6_hashing_before_validation c6model [] none "testing"
    (by decide) (by decide) (by decide) rfl (by decide)
  exact ⟨h.1, h.2.2.1, by decide, by decide⟩

/-- C7: whenever the validation hook rejects a save, the rejection error
carries the model's table name (together with the offending key and reason
it was built from), and the underlying write does not happen: the store is
returned unchanged. -/
theorem c7_validation_failure_aborts (db : List Attrs) (m : MState)
    (attrs : Attrs) (opts : Option SaveOptions) (m' : MState) (e : VError)
    (h : saveAttempt [SaveHook.validating] m attrs opts = (m', some e)) :
    e.tableName = some m.tableName ∧
    saveWithDb db [SaveHook.validating] m attrs opts = (db, m', some e) := by
  constructor
  · unfold saveAttempt at h
    cases hv : validateSave (setModelAttrs m attrs) true attrs opts with
    | ok pr =>
      obtain ⟨m2, val⟩ := pr
      simp [runHooks, runHook, hv] at h
    | error e0 =>
      simp [runHooks, runHook, hv] at h
      have ht := validateSave_error_tableName (setModelAttrs m attrs) true attrs opts e0 hv
      rw [← h.2, ht, (setModelAttrs_config attrs m).2.1]
  · unfold saveWithDb
    rw [h]

/-- Concrete validating model for the C7 witness, as in the CRUD test. -/
def c7model : MState :=
  { attributes := [], isNewRec := true,
    tableName := "test_table",
    validate := some (joiKeys c5declared baseValidationFields) }

/-- The payload of the failing save in the C7 witness. -/
def c7attrs : Attrs := [("firstName", Value.vStr "notanoption")]

/-- The state the failing save leaves behind (the payload was set into the
model; validation threw before committing anything). -/
def c7state : MState := setModelAttrs c7model c7attrs

/-- The error the C7 witness save throws. -/
def c7err : VError :=
  { key := "firstName", reason := "must be one of the allowed values",
    tableName := some "test_table" }

/-- C7 witness: saving `firstName: 'notanoption'` on the concrete model
rejects with an error naming the offending field and the table name, and
the store is unchanged. -/
theorem c7_validation_failure_aborts_witness :
    c7err.key = "firstName" ∧
    c7err.tableName = some c7model.tableName ∧
    saveWithDb [] [SaveHook.validating] c7model c7attrs none =
      ([], c7state, some c7err) := by
  have hrun : saveAttempt [SaveHook.validating] c7model c7attrs none =
      (c7state, some c7err) := by decide
  have h := c7_validation_failure_aborts [] c7model c7attrs none c7state c7err hrun
  exact ⟨rfl, h.1, h.2⟩

/-- C8: on a secure-password model, `authenticate` rejects with the
distinguishable password-mismatch condition in all three failing cases —
no candidate supplied, no stored digest, candidate not matching the stored
digest — and resolves with the model exactly when the candidate matches a
present digest. -/
theorem c8_authenticate (m : MState)
    (hsec : securePasswordEnabled m.securePassword = true) :
    authenticate m none = Except.error AuthError.passwordMismatch ∧
    (lookupAttr m.attributes (digestFieldOf m) = none →
      ∀ c : String, authenticate m (some c) = Except.error AuthError.passwordMismatch) ∧
    (∀ (c p : String) (r : Int),
      lookupAttr m.attributes (digestFieldOf m) = some (Value.vDigest r (Value.vStr p)) →
      (authenticate m (some c) = Except.ok m ↔ c = p) ∧
      (c ≠ p →
        authenticate m (some c) = Except.error AuthError.passwordMismatch)) := by
  have hen : (!securePasswordEnabled m.securePassword) = false := by
    rw [hsec]
    rfl
  refine ⟨?_, ?_, ?_⟩
  · simp [authenticate, hen]
  · intro hd c
    simp [authenticate, hen, hd]
  · intro c p r hd
    constructor
    · by_cases hc : c = p
      · simp [authenticate, hen, hd, bcryptCompareSync, hc]
      · simp [authenticate, hen, hd, bcryptCompareSync, hc]
    · intro hc
      simp [authenticate, hen, hd, bcryptCompareSync, hc]

/-- Concrete saved secure-password model for the C8 witness. -/
def c8model : MState :=
  { attributes := [("passwordDigest", Value.vDigest 12 (Value.vStr "testing"))],
    isNewRec := false,
    tableName := "secured_password_table",
    securePassword := SecurePasswordCfg.on }

/-- Concrete never-saved secure-password model for the C8 witness. -/
def c8fresh : MState :=
  { attributes := [], isNewRec := true,
    tableName := "secured_password_table",
    securePassword := SecurePasswordCfg.on }

/-- C8 witness: the four test scenarios — correct candidate resolves with
the model; wrong candidate, missing candidate, and unsaved record (no
digest) each reject with the mismatch condition. -/
theorem c8_authenticate_witness :
    authenticate c8model (some "testing") = Except.ok c8model ∧
    authenticate c8model (some "invalid") = Except.error AuthError.passwordMismatch ∧
    authenticate c8model none = Except.error AuthError.passwordMismatch ∧
    authenticate c8fresh (some "testing") = Except.error AuthError.passwordMismatch := by
  have h1 := c8_authenticate c8model (by decide)
  have h2 := c8_authenticate c8fresh (by decide)
  refine ⟨?_, ?_, h1.1, h2.2.1 rfl "testing"⟩
  · exact ((h1.2.2 "testing" "testing" 12 rfl).1).mpr rfl
  · exact (h1.2.2 "invalid" "testing" 12 rfl).2 (by decide)

/-- Concrete store, select, update and options for C9. -/
def c9db : List Attrs := [[("id", Value.vNum 1), ("lastName", Value.vStr "x")]]

/-- The C9 matched row. -/
def c9row : Attrs := [("id", Value.vNum 1), ("lastName", Value.vStr "x")]

/-- The C9 select payload. -/
def c9sel : Attrs := [("lastName", Value.vStr "x")]

/-- The C9 update payload. -/
def c9upd : Attrs := [("lastName", Value.vStr "y")]

/-- Caller options overriding `patch`, falsifying C9 as stated. -/
def c9opts : Attrs := [("patch", Value.vBool false)]

/-- C9 counterexample: with a record matching the select payload present,
`upsert` called with caller options `patch: false` runs the save with
`patch: false` — the claim's unconditional "saved with patch:true" is
false, because `extend({patch:true, method:'update'}, options)` lets
caller options win. -/
theorem c9_upsert_counterexample :
    findOneRow c9db c9sel = some (0, c9row) ∧
    lookupAttr (upsert c9db c9sel c9upd c9opts).2.2 "patch" =
      some (Value.vBool false) := by
  decide

/-- C9 amended: when the caller options do not themselves set `patch` or
`method` and the update payload does not set the identifier, a matching
record is patched in place with the update payload under effective options
`patch: true`, `method: 'update'`, with its identifier unchanged; and when
no record matches, the insert writes the merge of the select and update
payloads, the update payload winning on colliding keys. -/
theorem c9_upsert_amended (db : List Attrs) (sel upd opts : Attrs)
    (hpatch : lookupAttr opts.reverse "patch" = none)
    (hmethod : lookupAttr opts.reverse "method" = none)
    (hid : lookupAttr upd.reverse "id" = none) :
    (∀ i row, findOneRow db sel = some (i, row) →
      upsert db sel upd opts =
        (db.set i (extendAttrs row upd), extendAttrs row upd,
          upsertFoundOptions opts) ∧
      lookupAttr (extendAttrs row upd) "id" = lookupAttr row "id" ∧
      lookupAttr (upsertFoundOptions opts) "patch" = some (Value.vBool true) ∧
      lookupAttr (upsertFoundOptions opts) "method" = some (Value.vStr "update")) ∧
    (findOneRow db sel = none →
      (upsert db sel upd opts).1 = db ++ [(upsert db sel upd opts).2.1] ∧
      (upsert db sel upd opts).2.2 = upsertCreateOptions opts ∧
      (∀ k v, lookupAttr upd.reverse k = some v →
        lookupAttr (upsert db sel upd opts).2.1 k = some v) ∧
      (∀ k v, lookupAttr upd.reverse k = none → lookupAttr sel k = some v →
        k ≠ "id" →
        lookupAttr (upsert db sel upd opts).2.1 k = some v)) := by
  constructor
  · intro i row hf
    refine ⟨by simp [upsert, hf], ?_, ?_, ?_⟩
    · rw [extendAttrs_lookup, hid]
    · unfold upsertFoundOptions
      rw [extendAttrs_lookup, hpatch]
      rfl
    · unfold upsertFoundOptions
      rw [extendAttrs_lookup, hmethod]
      rfl
  · intro hnf
    have hup : upsert db sel upd opts =
        (db ++ [(match lookupAttr (extendAttrs sel upd) "id" with
                 | some _ => extendAttrs sel upd
                 | none => setAttrKV (extendAttrs sel upd) "id"
                     (Value.vNum (freshId db)))],
         (match lookupAttr (extendAttrs sel upd) "id" with
          | some _ => extendAttrs sel upd
          | none => setAttrKV (extendAttrs sel upd) "id"
              (Value.vNum (freshId db))),
         upsertCreateOptions opts) := by
      simp only [upsert, hnf]
    have hins : ∀ k, k ≠ "id" →
        lookupAttr (upsert db sel upd opts).2.1 k =
          lookupAttr (extendAttrs sel upd) k := by
      intro k hk
      rw [hup]
      cases hmid : lookupAttr (extendAttrs sel upd) "id" with
      | some v0 => simp
      | none =>
        simp only []
        exact lookupAttr_setAttrKV_other _ _ _ _ hk
    refine ⟨by rw [hup], by rw [hup], ?_, ?_⟩
    · intro k v hk
      have hkid : k ≠ "id" := by
        intro he
        rw [he, hid] at hk
        cases hk
      rw [hins k hkid, extendAttrs_lookup, hk]
    · intro k v hk hsel hkid
      rw [hins k hkid, extendAttrs_lookup, hk, hsel]

/-- C9 amended witness: with default options, the matching row is patched
to `lastName: 'y'` under `patch: true`, `method: 'update'` with the
identifier unchanged; with an empty store, the insert carries the merged
payload with the update value winning. -/
theorem c9_upsert_amended_witness :
    upsert c9db c9sel c9upd [] =
      (c9db.set 0 (extendAttrs c9row c9upd), extendAttrs c9row c9upd,
        upsertFoundOptions []) ∧
    lookupAttr (extendAttrs c9row c9upd) "id" = lookupAttr c9row "id" ∧
    lookupAttr (upsertFoundOptions []) "patch" = some (Value.vBool true) ∧
    lookupAttr (upsertFoundOptions []) "method" = some (Value.vStr "update") ∧
    (upsert [] c9sel c9upd []).1 = [] ++ [(upsert [] c9sel c9upd []).2.1] ∧
    lookupAttr (upsert [] c9sel c9upd []).2.1 "lastName" =
      some (Value.vStr "y") := by
  have h := c9_upsert_amended c9db c9sel c9upd [] rfl rfl (by decide)
  have hf := h.1 0 c9row (by decide)
  have h2 := c9_upsert_amended [] c9sel c9upd [] rfl rfl (by decide)
  have hn := h2.2 (by decide)
  exact ⟨hf.1, hf.2.1, hf.2.2.1, hf.2.2.2, hn.1,
    hn.2.2.1 "lastName" (Value.vStr "y") (by decide)⟩

end Supermodel

